import Mathlib

/-!
Verification of the camogie-team-optimizer repository core: the dual-mode
MiniZinc solver service (src/solver/service.ts, surfaced in src/src/main.ts),
the shared CSV utilities (src/shared/utils.ts) and the shared constants
(src/src/shared/constants.ts).

The TypeScript code is shallowly embedded: duck-typed JavaScript values
become the inductive type JSVal, optional chaining becomes field lookup on
Option JSVal, the JavaScript truthiness-based fallback operators become
explicit combinators, thrown errors become an explicit error-value type, and
the ambient process environment becomes an explicit parameter.  JSON.parse
is an external built-in of the JavaScript runtime, so it is kept abstract:
the normalization definitions take a parse function of type
String -> Option JSVal (none models a parse failure, which the source
swallows) and the theorems quantify over it.
-/

/-- A JavaScript runtime value, as far as the solver service inspects one:
null, booleans, numbers (the service only compares and stores them, so Int
suffices), strings, arrays and plain objects with ordered fields.  A missing
field (JavaScript undefined) is modelled as none at the Option JSVal level. -/
inductive JSVal where
  | vnull : JSVal
  | vbool : Bool → JSVal
  | vnum : Int → JSVal
  | vstr : String → JSVal
  | varr : List JSVal → JSVal
  | vobj : List (String × JSVal) → JSVal

/-- JavaScript truthiness of a defined value: null, false, 0 and the empty
string are falsy; arrays and objects are always truthy. -/
def truthy : JSVal → Bool
  | .vnull => false
  | .vbool b => b
  | .vnum n => n != 0
  | .vstr s => s != ""
  | .varr _ => true
  | .vobj _ => true

/-- First field with the given key in an object literal, as JavaScript
property lookup on plain objects. -/
def lookupField : List (String × JSVal) → String → Option JSVal
  | [], _ => none
  | (k, v) :: rest, key => if k = key then some v else lookupField rest key

/-- Optional-chained property access a?.k: undefined when the receiver is
undefined or not an object, otherwise the field (itself possibly absent). -/
def getF : Option JSVal → String → Option JSVal
  | some (.vobj fs), k => lookupField fs k
  | _, _ => none

/-- The JavaScript fallback a || d with a value d on the right: a when a is
defined and truthy, d otherwise. -/
def jsOrD (a : Option JSVal) (d : JSVal) : JSVal :=
  match a with
  | some v => if truthy v then v else d
  | none => d

/-- The JavaScript nullish coalescing a ?? b: b exactly when a is undefined
or null. -/
def jsCoalesce (a b : Option JSVal) : Option JSVal :=
  match a with
  | some .vnull => b
  | some v => some v
  | none => b

/-- Truthiness test on a possibly-undefined value, as the condition of the
ternary parsed ? x : y in the source. -/
def parsedTruthy : Option JSVal → Bool
  | some v => truthy v
  | none => false

/-- Leading and trailing whitespace removal on a character list. -/
def trimChars (cs : List Char) : List Char :=
  ((cs.dropWhile Char.isWhitespace).reverse.dropWhile Char.isWhitespace).reverse

/-- JavaScript String.prototype.trim, on the character-list view of a
string. -/
def jsTrim (s : String) : String := ⟨trimChars s.toList⟩

/-- Split of a character list at every occurrence of a separator character,
keeping empty segments, as JavaScript String.prototype.split with a
one-character separator. -/
def splitChars (sep : Char) (cs : List Char) : List (List Char) :=
  cs.foldr
    (fun c acc =>
      match acc with
      | [] => [[c]]
      | a :: rest => if c = sep then [] :: a :: rest else (c :: a) :: rest)
    [[]]

/-- JavaScript split with a one-character separator. -/
def jsSplitOn (sep : Char) (s : String) : List String :=
  (splitChars sep s.toList).map (fun cs => ⟨cs⟩)

/-- JavaScript String.prototype.toLowerCase restricted to the ASCII letters
appearing in the CSV headers and position names. -/
def jsToLower (s : String) : String := ⟨s.toList.map Char.toLower⟩

/-- The raw output text probe of MiniZincService.solve:
resultAny?.output ?? resultAny?.solution?.output?.default ?? null. -/
def rawOutputOf (r : JSVal) : Option JSVal :=
  jsCoalesce (getF (some r) "output")
    (getF (getF (getF (some r) "solution") "output") "default")

/-- The parsed JSON block of MiniZincService.solve: when the raw output probe
yields a string, JSON.parse of its trimmed text (parse failures are
swallowed, leaving parsed null); otherwise null.  The parse function is the
abstract JSON.parse of the runtime. -/
def parsedOf (jparse : String → Option JSVal) (r : JSVal) : Option JSVal :=
  match rawOutputOf r with
  | some (.vstr s) => jparse (jsTrim s)
  | _ => none

/-- Status extraction of MiniZincService.solve, the chain
parsed?.status || resultAny?.status || resultAny?.result?.status ||
resultAny?.solution?.status || (parsed ? OPTIMAL : UNKNOWN). -/
def normStatus (parsed : Option JSVal) (r : JSVal) : JSVal :=
  jsOrD (getF parsed "status") <|
  jsOrD (getF (some r) "status") <|
  jsOrD (getF (getF (some r) "result") "status") <|
  jsOrD (getF (getF (some r) "solution") "status")
    (if parsedTruthy parsed then .vstr "OPTIMAL" else .vstr "UNKNOWN")

/-- Solution extraction of MiniZincService.solve, the chain
parsed?.solution || resultAny?.solution?.output?.json ||
resultAny?.solution?.solution || resultAny?.solution || resultAny?.result ||
null. -/
def normSolution (parsed : Option JSVal) (r : JSVal) : JSVal :=
  jsOrD (getF parsed "solution") <|
  jsOrD (getF (getF (getF (some r) "solution") "output") "json") <|
  jsOrD (getF (getF (some r) "solution") "solution") <|
  jsOrD (getF (some r) "solution") <|
  jsOrD (getF (some r) "result") .vnull

/-- Statistics extraction of MiniZincService.solve, the chain
parsed?.statistics || resultAny?.statistics || resultAny?.result?.statistics
|| null. -/
def normStats (parsed : Option JSVal) (r : JSVal) : JSVal :=
  jsOrD (getF parsed "statistics") <|
  jsOrD (getF (some r) "statistics") <|
  jsOrD (getF (getF (some r) "result") "statistics") .vnull

/-- The canonical fields the service extracts from one raw engine response.
The solveTime field of SolverResult is wall-clock time, kept outside the
pure model. -/
structure NormResult where
  status : JSVal
  solution : JSVal
  statistics : JSVal

/-- Result normalization of MiniZincService.solve on the success path: parse
the embedded JSON block once, then extract status, solution and statistics. -/
def normalizeResult (jparse : String → Option JSVal) (r : JSVal) : NormResult :=
  let parsed := parsedOf jparse r
  ⟨normStatus parsed r, normSolution parsed r, normStats parsed r⟩

/-- A normalized result wrapped back into the object shape of a SolverResult
value, as a caller would hand it to the service again as a raw response. -/
def wrapResult (n : NormResult) (solveTime : Int) : JSVal :=
  .vobj [("status", n.status), ("solution", n.solution),
         ("statistics", n.statistics), ("solveTime", .vnum solveTime)]

/-- The status vocabulary declared by the SolverResult interface in
src/src/main.ts: OPTIMAL, SATISFIED, UNSATISFIABLE, UNKNOWN, ERROR. -/
def allowedStatus (v : JSVal) : Prop :=
  v = .vstr "OPTIMAL" ∨ v = .vstr "SATISFIED" ∨ v = .vstr "UNSATISFIABLE" ∨
  v = .vstr "UNKNOWN" ∨ v = .vstr "ERROR"

/-- A trivial instance of the abstract JSON.parse used to evaluate the
definitions at concrete inputs whose output text plays no role. -/
def jparse0 : String → Option JSVal := fun _ => none

/-- A JavaScript value thrown during solve, classified the way the catch
block of MiniZincService.solve inspects it: an Error instance with its
message, a plain string, a plain object with a string message field, a plain
object without one (carrying the results of its toString and JSON.stringify,
both assumed to return strings), or any other value (null, undefined,
numbers, booleans). -/
inductive ErrVal where
  | errObj (message : String)
  | strVal (s : String)
  | objMsg (message : String)
  | objNoMsg (toStr : String) (jsonStr : String)
  | nonObj

/-- The error-message formatting chain of the catch block in
MiniZincService.solve: Error message, the thrown string, the object message
field, String(errObj) unless toString gives the generic object tag, then
JSON.stringify, with Unknown error as the initial default. -/
def formatError : ErrVal → String
  | .errObj m => m
  | .strVal s => s
  | .objMsg m => m
  | .objNoMsg toStr jsonStr =>
      if toStr = "[object Object]" then jsonStr else toStr
  | .nonObj => "Unknown error"

/-- The SolverResult record produced by one solve call, solveTime omitted
(wall-clock time).  errorMessage is optional, as in the interface. -/
structure SolverResultM where
  status : JSVal
  solution : JSVal
  statistics : JSVal
  errorMessage : Option String

/-- The try/catch body of MiniZincService.solve once the engine has been
invoked: a resolved engine response is normalized; a thrown error is folded
into a result with status ERROR, null solution, null statistics and the
formatted error message.  Totality of this definition is the propagation
policy of the source: nothing escapes the catch. -/
def solveOutcome (jparse : String → Option JSVal) :
    Except ErrVal JSVal → SolverResultM
  | .ok r =>
      let n := normalizeResult jparse r
      ⟨n.status, n.solution, n.statistics, none⟩
  | .error e => ⟨.vstr "ERROR", .vnull, .vnull, some (formatError e)⟩

/-- The execution mode detected in the MiniZincService constructor: browser
when a window global is present, node otherwise. -/
inductive ExecutionMode where
  | browser : ExecutionMode
  | node : ExecutionMode
deriving DecidableEq

/-- The WASM solver list hardcoded in MiniZincService.isSolverAvailable and
MiniZincService.getAvailableSolvers for browser mode. -/
def wasmSolvers : List String := ["gecode", "chuffed", "cbc"]

/-- MiniZincService.isSolverAvailable: membership in the WASM list in
browser mode, true unconditionally in node mode. -/
def isSolverAvailable (mode : ExecutionMode) (solver : String) : Bool :=
  match mode with
  | .browser => wasmSolvers.contains solver
  | .node => true

/-- The capability gate at the top of MiniZincService.solve: some error
message when the call throws before the engine is invoked (browser mode with
a solver outside the WASM list), none when control reaches the engine. -/
def solveGate (mode : ExecutionMode) (solver : String) : Option String :=
  if mode = ExecutionMode.browser && !(isSolverAvailable mode solver) then
    some ("Solver \"" ++ solver ++ "\" is not available in WASM mode. " ++
      "Available solvers: gecode, chuffed, cbc. Use local Node.js mode for cp-sat.")
  else none

/-- How many times one solve call invokes the underlying engine: zero when
the capability gate throws first, one otherwise (model.solve is reached
exactly once on the non-throwing path). -/
def engineInvocations (mode : ExecutionMode) (solver : String) : Nat :=
  match solveGate mode solver with
  | some _ => 0
  | none => 1

/-- SOLVERS.local from src/src/shared/constants.ts. -/
def SOLVERS_local : List String := ["cbc", "coinbc", "cp-sat", "chuffed"]

/-- SOLVERS.wasm from src/src/shared/constants.ts. -/
def SOLVERS_wasm : List String := ["gecode", "chuffed", "cbc"]

/-- The env-list post-processing in MiniZincService.getAvailableSolvers:
envList.split(",").map(trim).filter(Boolean). -/
def envSplit (s : String) : List String :=
  ((jsSplitOn ',' s).map jsTrim).filter (fun x => x != "")

/-- MiniZincService.getAvailableSolvers, with the ambient
process.env.MINIZINC_AVAILABLE_SOLVERS made an explicit parameter (none for
an unset variable): browser mode returns the fixed WASM list; node mode
returns the split env list when the variable is set and not blank, else the
fixed local default list. -/
def getAvailableSolvers (mode : ExecutionMode) (envList : Option String) :
    List String :=
  match mode with
  | .browser => ["gecode", "chuffed", "cbc"]
  | .node =>
      match envList with
      | some s =>
          if (jsTrim s).length > 0 then envSplit s
          else ["cbc", "coinbc", "cp-sat", "chuffed"]
      | none => ["cbc", "coinbc", "cp-sat", "chuffed"]

/-- A parsed roster row, as the Player interface in src/src/main.ts.  The
position is stored as the string the parser derived for the row. -/
structure Player where
  name : String
  rating : Int
  position : String
deriving DecidableEq

/-- The POSITIONS table of src/src/shared/constants.ts projected to the
index used in model payloads, with the lookup fallback
POSITIONS[position] || POSITIONS.unknown: forward 1, midfield 2, defense 3,
anything else 0. -/
def positionIndex (pos : String) : Nat :=
  if pos = "forward" then 1
  else if pos = "midfield" then 2
  else if pos = "defense" then 3
  else 0

/-- Longest leading run of decimal digits of a character list, as the digit
scan of parseInt with radix 10; none when the run is empty. -/
def leadingDigits (cs : List Char) : Option Nat :=
  let ds := cs.takeWhile Char.isDigit
  if ds.isEmpty then none
  else some (ds.foldl (fun acc c => acc * 10 + (c.toNat - '0'.toNat)) 0)

/-- JavaScript parseInt(s, 10): skip surrounding whitespace, an optional
sign, then the longest leading digit run; NaN (none) when no digits lead. -/
def jsParseInt (s : String) : Option Int :=
  match (jsTrim s).toList with
  | '-' :: rest => (leadingDigits rest).map (fun n => -(n : Int))
  | '+' :: rest => (leadingDigits rest).map (fun n => (n : Int))
  | cs => (leadingDigits cs).map (fun n => (n : Int))

/-- One iteration of the data-row loop in parseCSV (src/shared/utils.ts,
src/unnamed/part_005): trim the line, skip blank lines, split on commas,
require at least two fields, parse the rating via parseInt (rows whose
rating is NaN are skipped), default a blank name to Player i, lowercase the
trimmed position when a position column exists (missing or empty maps to
unknown), and emit the player together with the rating, position and
position-index entries pushed to the parallel arrays. -/
def parseRow (nameIdx ratingIdx : Nat) (posIdx : Option Nat) (i : Nat)
    (line : String) : Option (Player × Int × String × Nat) :=
  let l := jsTrim line
  if l = "" then none
  else
    let values := jsSplitOn ',' l
    if values.length ≥ 2 then
      match (values.get? ratingIdx).bind (fun v => jsParseInt (jsTrim v)) with
      | none => none
      | some rating =>
          let name :=
            match values.get? nameIdx with
            | some v => if jsTrim v = "" then "Player " ++ toString i else jsTrim v
            | none => "Player " ++ toString i
          let positionRaw : Option String :=
            match posIdx with
            | none => some "unknown"
            | some j => (values.get? j).map (fun v => jsToLower (jsTrim v))
          let position :=
            match positionRaw with
            | some p => if p = "" then "unknown" else p
            | none => "unknown"
          some (⟨name, rating, position⟩, rating, position, positionIndex position)
    else none

/-- The ModelData payload built by parseCSV, fields as in the source (the
num_players, ratings, positions and position_indices parameters of the
MiniZinc models plus the Player list). -/
structure ParsedData where
  num_players : Nat
  players : List Player
  ratings : List Int
  positions : List String
  position_indices : List Nat
deriving DecidableEq

/-- parseCSV from src/shared/utils.ts: trim the text, split into lines,
require a header plus one data row, locate the name, rating and position
columns case-insensitively (name and rating are mandatory), run the row loop
with source line numbers starting at 1, and fail when no row survives.  The
four result sequences are the projections of the per-row quadruples, exactly
as the loop pushes one entry to each array per accepted row. -/
def parseCSV (csvText : String) : Except String ParsedData :=
  let lines := jsSplitOn '\n' (jsTrim csvText)
  if lines.length < 2 then
    .error "CSV must have at least a header and one data row"
  else
    let headers := (jsSplitOn ',' (lines.headD "")).map (fun h => jsToLower (jsTrim h))
    match headers.findIdx? (· = "name"), headers.findIdx? (· = "rating") with
    | some nameIdx, some ratingIdx =>
        let posIdx := headers.findIdx? (· = "position")
        let rows := (lines.drop 1).enum.filterMap
          (fun p => parseRow nameIdx ratingIdx posIdx (p.1 + 1) p.2)
        if rows.isEmpty then .error "No valid player data found in CSV"
        else .ok
          { num_players := rows.length
            players := rows.map (fun r => r.1)
            ratings := rows.map (fun r => r.2.1)
            positions := rows.map (fun r => r.2.2.1)
            position_indices := rows.map (fun r => r.2.2.2) }
    | _, _ => .error "CSV must contain name and rating columns"

/-- splitIntoTeams from src/shared/utils.ts: the forEach over the assignment
array appends players[idx] to team A when the entry is strictly 0 and to
team B otherwise, skipping indices at or beyond the player count.  The
recursion walks both lists in step; when either list is exhausted the loop
body does nothing further. -/
def splitIntoTeams : List Player → List Int → List Player × List Player
  | _, [] => ([], [])
  | [], _ :: _ => ([], [])
  | p :: ps, t :: ts =>
      let rest := splitIntoTeams ps ts
      if t == 0 then (p :: rest.1, rest.2) else (rest.1, p :: rest.2)

/-- calculateTotalRating from src/shared/utils.ts: reduce over ratings with
initial sum 0. -/
def calculateTotalRating (players : List Player) : Int :=
  players.foldl (fun sum p => sum + p.rating) 0

/-- First truthy value of a probe list with a final default, used to state
the status priority order of spec section 4.4 independently of the source
chain. -/
def firstTruthyVal : List (Option JSVal) → JSVal → JSVal
  | [], d => d
  | a :: rest, d =>
      match a with
      | some v => if truthy v then v else firstTruthyVal rest d
      | none => firstTruthyVal rest d

/-- Modelled from the words of the claim and spec section 4.4 step 2: status
taken from the parsed-JSON status field, else the direct response status
field, else the nested solution status field, else OPTIMAL when a JSON block
was (truthily) parsed, else UNKNOWN, consulting nothing else. -/
def statusPerSpecOrder (jparse : String → Option JSVal) (r : JSVal) : JSVal :=
  let parsed := parsedOf jparse r
  firstTruthyVal
    [getF parsed "status", getF (some r) "status",
     getF (getF (some r) "solution") "status"]
    (if parsedTruthy parsed then .vstr "OPTIMAL" else .vstr "UNKNOWN")

/-- The amended status priority order: as statusPerSpecOrder, with the
status field of the nested result object consulted between the direct
response status field and the nested solution status field, which is the one
extra data source the code consults. -/
def statusPerAmendedOrder (jparse : String → Option JSVal) (r : JSVal) : JSVal :=
  let parsed := parsedOf jparse r
  firstTruthyVal
    [getF parsed "status", getF (some r) "status",
     getF (getF (some r) "result") "status",
     getF (getF (some r) "solution") "status"]
    (if parsedTruthy parsed then .vstr "OPTIMAL" else .vstr "UNKNOWN")

theorem getF_none (k : String) : getF none k = none := rfl

theorem jsOrD_none (d : JSVal) : jsOrD none d = d := rfl

theorem jsOrD_some (v : JSVal) (d : JSVal) :
    jsOrD (some v) d = if truthy v then v else d := rfl

theorem jsOrD_truthy (a : Option JSVal) (d : JSVal) (hd : truthy d = true) :
    truthy (jsOrD a d) = true := by
  cases a with
  | none => exact hd
  | some v =>
      by_cases hv : truthy v = true
      · simp [jsOrD, hv]
      · simp [jsOrD, hv, hd]

theorem jsOrD_eq_or (a : Option JSVal) (d : JSVal) :
    jsOrD a d = d ∨ truthy (jsOrD a d) = true := by
  cases a with
  | none => exact Or.inl rfl
  | some v =>
      by_cases hv : truthy v = true
      · exact Or.inr (by simp [jsOrD, hv])
      · exact Or.inl (by simp [jsOrD, hv])

theorem jsOrD_null_or_truthy (a : Option JSVal) (d : JSVal)
    (hd : d = .vnull ∨ truthy d = true) :
    jsOrD a d = .vnull ∨ truthy (jsOrD a d) = true := by
  rcases jsOrD_eq_or a d with h | h
  · rw [h]; exact hd
  · exact Or.inr h

theorem normStatus_truthy (parsed : Option JSVal) (r : JSVal) :
    truthy (normStatus parsed r) = true := by
  unfold normStatus
  apply jsOrD_truthy
  apply jsOrD_truthy
  apply jsOrD_truthy
  apply jsOrD_truthy
  by_cases h : parsedTruthy parsed = true <;> simp [h, truthy]

theorem normSolution_null_or_truthy (parsed : Option JSVal) (r : JSVal) :
    normSolution parsed r = .vnull ∨ truthy (normSolution parsed r) = true := by
  unfold normSolution
  exact jsOrD_null_or_truthy _ _ (jsOrD_null_or_truthy _ _ (jsOrD_null_or_truthy _ _
    (jsOrD_null_or_truthy _ _ (jsOrD_null_or_truthy _ _ (Or.inl rfl)))))

theorem normStats_null_or_truthy (parsed : Option JSVal) (r : JSVal) :
    normStats parsed r = .vnull ∨ truthy (normStats parsed r) = true := by
  unfold normStats
  exact jsOrD_null_or_truthy _ _ (jsOrD_null_or_truthy _ _
    (jsOrD_null_or_truthy _ _ (Or.inl rfl)))

theorem normalizeResult_status (jparse : String → Option JSVal) (r : JSVal) :
    (normalizeResult jparse r).status = normStatus (parsedOf jparse r) r := rfl

theorem normalizeResult_solution (jparse : String → Option JSVal) (r : JSVal) :
    (normalizeResult jparse r).solution = normSolution (parsedOf jparse r) r := rfl

theorem normalizeResult_statistics (jparse : String → Option JSVal) (r : JSVal) :
    (normalizeResult jparse r).statistics = normStats (parsedOf jparse r) r := rfl

theorem getF_wrap_status (n : NormResult) (t : Int) :
    getF (some (wrapResult n t)) "status" = some n.status := rfl

theorem getF_wrap_solution (n : NormResult) (t : Int) :
    getF (some (wrapResult n t)) "solution" = some n.solution := rfl

theorem getF_wrap_statistics (n : NormResult) (t : Int) :
    getF (some (wrapResult n t)) "statistics" = some n.statistics := rfl

theorem getF_wrap_output (n : NormResult) (t : Int) :
    getF (some (wrapResult n t)) "output" = none := rfl

theorem getF_wrap_result (n : NormResult) (t : Int) :
    getF (some (wrapResult n t)) "result" = none := rfl

theorem parsedOf_wrap_none (jparse : String → Option JSVal) (n : NormResult)
    (t : Int) (h1 : getF (some n.solution) "output" = none) :
    parsedOf jparse (wrapResult n t) = none := by
  unfold parsedOf rawOutputOf
  rw [getF_wrap_output, getF_wrap_solution, h1, getF_none]
  rfl

theorem firstTruthyVal_cons (a : Option JSVal) (rest : List (Option JSVal))
    (d : JSVal) :
    firstTruthyVal (a :: rest) d = jsOrD a (firstTruthyVal rest d) := by
  cases a <;> rfl

theorem firstTruthyVal_nil (d : JSVal) : firstTruthyVal [] d = d := rfl

theorem parseRow_shape (nameIdx ratingIdx : Nat) (posIdx : Option Nat) (i : Nat)
    (line : String) (r : Player × Int × String × Nat)
    (h : parseRow nameIdx ratingIdx posIdx i line = some r) :
    r.2.1 = r.1.rating ∧ r.2.2.1 = r.1.position ∧
    r.2.2.2 = positionIndex r.1.position := by
  simp only [parseRow] at h
  split at h
  · simp at h
  · split at h
    · split at h
      · simp at h
      · injection h with h2
        subst h2
        exact ⟨rfl, rfl, rfl⟩
    · simp at h

theorem splitIntoTeams_fst (players : List Player) (assn : List Int) :
    (splitIntoTeams players assn).1
      = ((players.zip assn).filter (fun pt => pt.2 == 0)).map Prod.fst := by
  induction players generalizing assn with
  | nil => cases assn <;> simp [splitIntoTeams]
  | cons p ps ih =>
      cases assn with
      | nil => simp [splitIntoTeams]
      | cons t ts =>
          by_cases h : t == 0 <;>
            simp [splitIntoTeams, h, List.zip_cons_cons, List.filter_cons, ih ts]

theorem splitIntoTeams_snd (players : List Player) (assn : List Int) :
    (splitIntoTeams players assn).2
      = ((players.zip assn).filter (fun pt => !(pt.2 == 0))).map Prod.fst := by
  induction players generalizing assn with
  | nil => cases assn <;> simp [splitIntoTeams]
  | cons p ps ih =>
      cases assn with
      | nil => simp [splitIntoTeams]
      | cons t ts =>
          by_cases h : t == 0 <;>
            simp [splitIntoTeams, h, List.zip_cons_cons, List.filter_cons, ih ts]

theorem splitIntoTeams_length (players : List Player) (assn : List Int) :
    (splitIntoTeams players assn).1.length + (splitIntoTeams players assn).2.length
      = min players.length assn.length := by
  induction players generalizing assn with
  | nil => cases assn <;> simp [splitIntoTeams]
  | cons p ps ih =>
      cases assn with
      | nil => simp [splitIntoTeams]
      | cons t ts =>
          have h2 := ih ts
          by_cases h : t == 0 <;>
            · simp only [splitIntoTeams, h, if_true, if_false, List.length_cons,
                Bool.false_eq_true, ite_true, ite_false]
              omega

theorem splitIntoTeams_fst_sublist (players : List Player) (assn : List Int) :
    (splitIntoTeams players assn).1.Sublist players := by
  induction players generalizing assn with
  | nil => cases assn <;> simp [splitIntoTeams]
  | cons p ps ih =>
      cases assn with
      | nil => simp [splitIntoTeams]
      | cons t ts =>
          by_cases h : t == 0
          · simpa [splitIntoTeams, h] using List.Sublist.cons₂ p (ih ts)
          · simpa [splitIntoTeams, h] using List.Sublist.cons p (ih ts)

theorem splitIntoTeams_snd_sublist (players : List Player) (assn : List Int) :
    (splitIntoTeams players assn).2.Sublist players := by
  induction players generalizing assn with
  | nil => cases assn <;> simp [splitIntoTeams]
  | cons p ps ih =>
      cases assn with
      | nil => simp [splitIntoTeams]
      | cons t ts =>
          by_cases h : t == 0
          · simpa [splitIntoTeams, h] using List.Sublist.cons p (ih ts)
          · simpa [splitIntoTeams, h] using List.Sublist.cons₂ p (ih ts)

theorem get?_zip_mem {α β : Type} (l1 : List α) (l2 : List β) (i : Nat)
    (a : α) (b : β) (h1 : l1.get? i = some a) (h2 : l2.get? i = some b) :
    (a, b) ∈ l1.zip l2 := by
  induction l1 generalizing l2 i with
  | nil => simp at h1
  | cons x xs ih =>
      cases l2 with
      | nil => simp at h2
      | cons y ys =>
          cases i with
          | zero =>
              simp only [List.get?] at h1 h2
              injection h1 with h1
              injection h2 with h2
              subst h1; subst h2
              simp [List.zip_cons_cons]
          | succ n =>
              simp only [List.get?] at h1 h2
              exact List.mem_cons_of_mem _ (ih ys n h1 h2)

theorem contains_iff_mem (l : List String) (s : String) :
    l.contains s = true ↔ s ∈ l := by
  simp [List.contains, List.elem_iff]

/-- C1 counterexample: in the node context the solver gecode is outside the
capability set reported for that context, yet a solve call is not rejected
before the engine: the capability gate passes and the engine is invoked
once, not zero times. -/
theorem node_gecode_reaches_engine :
    ¬ "gecode" ∈ getAvailableSolvers ExecutionMode.node none ∧
    solveGate ExecutionMode.node "gecode" = none ∧
    engineInvocations ExecutionMode.node "gecode" = 1 := by
  refine ⟨by decide, rfl, rfl⟩

/-- C1 (amended): a solve call is rejected before the engine is invoked
exactly when the context is the browser context and the requested solver is
outside the WASM list gecode, chuffed, cbc; in the node context
isSolverAvailable accepts every solver id and the engine is always invoked,
so an unsupported solver in the native context is never rejected up front. -/
theorem solve_rejects_iff_browser_unsupported (mode : ExecutionMode)
    (solver : String) :
    (engineInvocations mode solver = 0 ↔
      mode = ExecutionMode.browser ∧ ¬ solver ∈ wasmSolvers) ∧
    ((solveGate mode solver).isSome = true ↔
      mode = ExecutionMode.browser ∧ ¬ solver ∈ wasmSolvers) := by
  cases mode with
  | node => simp [engineInvocations, solveGate, isSolverAvailable]
  | browser =>
      by_cases h : solver ∈ wasmSolvers
      · have hc : wasmSolvers.contains solver = true := (contains_iff_mem _ _).2 h
        simp [engineInvocations, solveGate, isSolverAvailable, hc, h]
      · have hc : wasmSolvers.contains solver = false := by
          cases hx : wasmSolvers.contains solver
          · rfl
          · exact absurd ((contains_iff_mem _ _).1 hx) h
        simp [engineInvocations, solveGate, isSolverAvailable, hc, h]

/-- C4: the normalization passes an unexpected status string straight
through: the raw response with status field FOO yields a normalized status
FOO, which is outside the five-value vocabulary declared by the SolverResult
interface.  The code contradicts its own type declaration through the
untyped extraction chain. -/
theorem normalize_surfaces_sixth_status :
    (normalizeResult jparse0 (.vobj [("status", .vstr "FOO")])).status
      = .vstr "FOO" ∧
    ¬ allowedStatus
        (normalizeResult jparse0 (.vobj [("status", .vstr "FOO")])).status := by
  refine ⟨rfl, ?_⟩
  rw [show (normalizeResult jparse0 (.vobj [("status", .vstr "FOO")])).status
      = .vstr "FOO" from rfl]
  simp [allowedStatus]

/-- C5 counterexample: with the MINIZINC_AVAILABLE_SOLVERS environment
variable set to gecode, the node-context capability lookup returns a list
containing gecode, so the lookup is not a pure function of the execution
context and the native row is not fixed. -/
theorem env_override_breaks_capability_purity :
    getAvailableSolvers ExecutionMode.node (some "gecode") = ["gecode"] ∧
    "gecode" ∈ getAvailableSolvers ExecutionMode.node (some "gecode") := by
  refine ⟨by decide, by decide⟩

/-- C5 (amended): the browser row of the capability lookup is fixed for
every environment, equals the SOLVERS.wasm constant and never contains
cp-sat; the node row equals the SOLVERS.local constant and never contains
gecode whenever the MINIZINC_AVAILABLE_SOLVERS environment variable is
unset or blank, but a non-blank value replaces the node row entirely. -/
theorem capability_rows_fixed_without_override (env : Option String) :
    getAvailableSolvers ExecutionMode.browser env = SOLVERS_wasm ∧
    ¬ "cp-sat" ∈ getAvailableSolvers ExecutionMode.browser env ∧
    getAvailableSolvers ExecutionMode.node none = SOLVERS_local ∧
    ¬ "gecode" ∈ getAvailableSolvers ExecutionMode.node none ∧
    (∀ s : String, jsTrim s = "" →
      getAvailableSolvers ExecutionMode.node (some s) = SOLVERS_local) := by
  refine ⟨rfl, ?_, rfl, by decide, ?_⟩
  · rw [show getAvailableSolvers ExecutionMode.browser env = SOLVERS_wasm from rfl]
    decide
  · intro s hs
    simp [getAvailableSolvers, hs, SOLVERS_local]

/-- Witness for the amended C5 theorem at the unset and the blank
environment. -/
theorem capability_rows_fixed_without_override_witness :
    getAvailableSolvers ExecutionMode.browser none = SOLVERS_wasm ∧
    getAvailableSolvers ExecutionMode.node (some "") = SOLVERS_local :=
  ⟨(capability_rows_fixed_without_override none).1,
   (capability_rows_fixed_without_override none).2.2.2.2 "" rfl⟩

/-- C7: the demonstration CSV parses to the payload with four players,
ratings 8, 6, 7, 9 and position codes 1, 3, 2, 1; splitting on the stub
assignment 0, 1, 1, 0 puts Alice and Diana on team A and Bob and Charlie on
team B, with total ratings 17 and 13 and a rating difference of 4. -/
theorem demo_csv_payload_and_team_split :
    parseCSV "name,rating,position\nAlice,8,forward\nBob,6,defense\nCharlie,7,midfield\nDiana,9,forward"
      = .ok ⟨4,
        [⟨"Alice", 8, "forward"⟩, ⟨"Bob", 6, "defense"⟩,
         ⟨"Charlie", 7, "midfield"⟩, ⟨"Diana", 9, "forward"⟩],
        [8, 6, 7, 9],
        ["forward", "defense", "midfield", "forward"],
        [1, 3, 2, 1]⟩ ∧
    splitIntoTeams
        [⟨"Alice", 8, "forward"⟩, ⟨"Bob", 6, "defense"⟩,
         ⟨"Charlie", 7, "midfield"⟩, ⟨"Diana", 9, "forward"⟩]
        [0, 1, 1, 0]
      = ([⟨"Alice", 8, "forward"⟩, ⟨"Diana", 9, "forward"⟩],
         [⟨"Bob", 6, "defense"⟩, ⟨"Charlie", 7, "midfield"⟩]) ∧
    calculateTotalRating [⟨"Alice", 8, "forward"⟩, ⟨"Diana", 9, "forward"⟩] = 17 ∧
    calculateTotalRating [⟨"Bob", 6, "defense"⟩, ⟨"Charlie", 7, "midfield"⟩] = 13 ∧
    calculateTotalRating [⟨"Alice", 8, "forward"⟩, ⟨"Diana", 9, "forward"⟩]
      - calculateTotalRating [⟨"Bob", 6, "defense"⟩, ⟨"Charlie", 7, "midfield"⟩]
      = 4 := by
  refine ⟨rfl, rfl, rfl, rfl, rfl⟩

/-- C3 counterexample: for the response carrying status SATISFIED inside its
nested result object and status UNSATISFIABLE inside its nested solution
object (no output text, no direct status field), the code normalizes the
status to SATISFIED, while the priority order stated by the claim yields
UNSATISFIABLE, so the claimed order omits a data source the code consults. -/
theorem status_priority_consults_result_field :
    (normalizeResult jparse0
        (.vobj [("result", .vobj [("status", .vstr "SATISFIED")]),
                ("solution", .vobj [("status", .vstr "UNSATISFIABLE")])])).status
      = .vstr "SATISFIED" ∧
    statusPerSpecOrder jparse0
        (.vobj [("result", .vobj [("status", .vstr "SATISFIED")]),
                ("solution", .vobj [("status", .vstr "UNSATISFIABLE")])])
      = .vstr "UNSATISFIABLE" ∧
    (JSVal.vstr "SATISFIED" ≠ JSVal.vstr "UNSATISFIABLE") := by
  refine ⟨rfl, rfl, ?_⟩
  intro h
  injection h with h2
  exact absurd h2 (by decide)

/-- C3 (amended): for every response and every JSON.parse behavior, the
normalized status follows exactly the priority order parsed-JSON status,
else direct response status, else the status of the nested result object,
else the status of the nested solution object, else OPTIMAL when a truthy
JSON block was parsed, else UNKNOWN. -/
theorem status_follows_amended_priority (jparse : String → Option JSVal)
    (r : JSVal) :
    (normalizeResult jparse r).status = statusPerAmendedOrder jparse r := by
  rw [normalizeResult_status]
  unfold normStatus statusPerAmendedOrder
  simp only [firstTruthyVal_cons, firstTruthyVal_nil]

/-- C2 counterexample: when the engine throws the empty string, the folded
result carries an empty error message, so the message is not always
non-empty. -/
theorem solve_error_message_can_be_empty :
    (solveOutcome jparse0 (.error (.strVal ""))).status = .vstr "ERROR" ∧
    (solveOutcome jparse0 (.error (.strVal ""))).errorMessage = some "" :=
  ⟨rfl, rfl⟩

/-- C2 (amended): once the engine has been invoked, solve always returns a
result rather than throwing.  A thrown engine error folds into status ERROR,
null solution, null statistics and the formatted error message, which is
present though possibly empty when the thrown message is itself empty; a
response in which none of the probed fields exists normalizes to status
UNKNOWN with null solution and statistics and no error message. -/
theorem solve_folds_failures_into_result (jparse : String → Option JSVal)
    (e : ErrVal) (r : JSVal)
    (hout : getF (some r) "output" = none) (hst : getF (some r) "status" = none)
    (hres : getF (some r) "result" = none)
    (hsol : getF (some r) "solution" = none)
    (hstat : getF (some r) "statistics" = none) :
    (solveOutcome jparse (.error e)).status = .vstr "ERROR" ∧
    (solveOutcome jparse (.error e)).solution = .vnull ∧
    (solveOutcome jparse (.error e)).statistics = .vnull ∧
    (solveOutcome jparse (.error e)).errorMessage = some (formatError e) ∧
    (solveOutcome jparse (.ok r)).status = .vstr "UNKNOWN" ∧
    (solveOutcome jparse (.ok r)).solution = .vnull ∧
    (solveOutcome jparse (.ok r)).statistics = .vnull ∧
    (solveOutcome jparse (.ok r)).errorMessage = none := by
  have hpar : parsedOf jparse r = none := by
    unfold parsedOf rawOutputOf
    rw [hout, hsol]
    rfl
  refine ⟨rfl, rfl, rfl, rfl, ?_, ?_, ?_, rfl⟩
  · show (normalizeResult jparse r).status = _
    rw [normalizeResult_status, hpar]
    unfold normStatus
    rw [hst, hres, hsol]
    rfl
  · show (normalizeResult jparse r).solution = _
    rw [normalizeResult_solution, hpar]
    unfold normSolution
    rw [hres, hsol]
    rfl
  · show (normalizeResult jparse r).statistics = _
    rw [normalizeResult_statistics, hpar]
    unfold normStats
    rw [hstat, hres]
    rfl

/-- Witness for the amended C2 theorem: a concrete thrown error and a
concrete unrecognizable string response. -/
theorem solve_folds_failures_into_result_witness :
    (solveOutcome jparse0 (.error (.errObj "engine crashed"))).status
      = .vstr "ERROR" ∧
    (solveOutcome jparse0 (.error (.errObj "engine crashed"))).errorMessage
      = some "engine crashed" ∧
    (solveOutcome jparse0 (.ok (.vstr "mangled output"))).status
      = .vstr "UNKNOWN" ∧
    (solveOutcome jparse0 (.ok (.vstr "mangled output"))).solution = .vnull := by
  have h := solve_folds_failures_into_result jparse0 (.errObj "engine crashed")
    (.vstr "mangled output") rfl rfl rfl rfl rfl
  exact ⟨h.1, h.2.2.2.1, h.2.2.2.2.1, h.2.2.2.2.2.1⟩

/-- C9 counterexample: normalizing the response whose result object carries
a solution field produces a normalized solution that itself has a solution
member; renormalizing that result (wrapped as a raw response) descends into
it and returns the inner value, so normalization is not idempotent. -/
theorem renormalization_unwraps_nested_solution :
    (normalizeResult jparse0
        (.vobj [("result", .vobj [("solution", .vstr "X")])])).solution
      = .vobj [("solution", .vstr "X")] ∧
    (normalizeResult jparse0 (wrapResult (normalizeResult jparse0
        (.vobj [("result", .vobj [("solution", .vstr "X")])])) 0)).solution
      = .vstr "X" ∧
    (JSVal.vobj [("solution", .vstr "X")] ≠ JSVal.vstr "X") := by
  refine ⟨rfl, rfl, ?_⟩
  intro h
  exact JSVal.noConfusion h

/-- C9 (amended): normalization is idempotent on every normalized result
whose solution value does not itself expose output or solution members (as
the plain assignment objects produced by the models do not): renormalizing
the wrapped result reproduces the status, the solution and the statistics.
Without that proviso idempotence fails, because the extraction probes
descend into the solution object. -/
theorem normalize_idempotent_on_plain_results (jparse : String → Option JSVal)
    (r : JSVal) (t : Int)
    (h1 : getF (some (normalizeResult jparse r).solution) "output" = none)
    (h2 : getF (some (normalizeResult jparse r).solution) "solution" = none) :
    (normalizeResult jparse (wrapResult (normalizeResult jparse r) t)).status
      = (normalizeResult jparse r).status ∧
    (normalizeResult jparse (wrapResult (normalizeResult jparse r) t)).solution
      = (normalizeResult jparse r).solution ∧
    (normalizeResult jparse (wrapResult (normalizeResult jparse r) t)).statistics
      = (normalizeResult jparse r).statistics := by
  have hpar := parsedOf_wrap_none jparse (normalizeResult jparse r) t h1
  refine ⟨?_, ?_, ?_⟩
  · rw [normalizeResult_status, hpar]
    unfold normStatus
    simp only [getF_none, jsOrD_none, getF_wrap_status, jsOrD_some]
    rw [if_pos (by rw [normalizeResult_status]; exact normStatus_truthy _ _)]
  · rw [normalizeResult_solution, hpar]
    unfold normSolution
    simp only [getF_none, jsOrD_none, getF_wrap_solution, getF_wrap_result,
      h1, h2, jsOrD_some]
    have hcase : (normalizeResult jparse r).solution = .vnull ∨
        truthy (normalizeResult jparse r).solution = true := by
      rw [normalizeResult_solution]
      exact normSolution_null_or_truthy _ _
    rcases hcase with hc | hc
    · rw [hc]; rfl
    · rw [if_pos hc]
  · rw [normalizeResult_statistics, hpar]
    unfold normStats
    simp only [getF_none, jsOrD_none, getF_wrap_statistics, getF_wrap_result,
      jsOrD_some]
    have hcase : (normalizeResult jparse r).statistics = .vnull ∨
        truthy (normalizeResult jparse r).statistics = true := by
      rw [normalizeResult_statistics]
      exact normStats_null_or_truthy _ _
    rcases hcase with hc | hc
    · rw [hc]; rfl
    · rw [if_pos hc]

/-- Witness for the amended C9 theorem: a concrete response whose normalized
solution is a plain assignment object. -/
theorem normalize_idempotent_on_plain_results_witness :
    (normalizeResult jparse0 (wrapResult (normalizeResult jparse0
        (.vobj [("status", .vstr "OPTIMAL"),
          ("solution", .vobj [("assignment", .varr [.vnum 0, .vnum 1])])])) 7)).status
      = (normalizeResult jparse0
          (.vobj [("status", .vstr "OPTIMAL"),
            ("solution", .vobj [("assignment", .varr [.vnum 0, .vnum 1])])])).status ∧
    (normalizeResult jparse0 (wrapResult (normalizeResult jparse0
        (.vobj [("status", .vstr "OPTIMAL"),
          ("solution", .vobj [("assignment", .varr [.vnum 0, .vnum 1])])])) 7)).solution
      = (normalizeResult jparse0
          (.vobj [("status", .vstr "OPTIMAL"),
            ("solution", .vobj [("assignment", .varr [.vnum 0, .vnum 1])])])).solution ∧
    (normalizeResult jparse0 (wrapResult (normalizeResult jparse0
        (.vobj [("status", .vstr "OPTIMAL"),
          ("solution", .vobj [("assignment", .varr [.vnum 0, .vnum 1])])])) 7)).statistics
      = (normalizeResult jparse0
          (.vobj [("status", .vstr "OPTIMAL"),
            ("solution", .vobj [("assignment", .varr [.vnum 0, .vnum 1])])])).statistics :=
  normalize_idempotent_on_plain_results jparse0
    (.vobj [("status", .vstr "OPTIMAL"),
      ("solution", .vobj [("assignment", .varr [.vnum 0, .vnum 1])])]) 7 rfl rfl

theorem alignment_of_rows (rows : List (Player × Int × String × Nat))
    (hrows : ∀ r ∈ rows, r.2.1 = r.1.rating ∧ r.2.2.2 = positionIndex r.1.position) :
    ∀ i p, (rows.map (fun r => r.1)).get? i = some p →
      (rows.map (fun r => r.2.1)).get? i = some p.rating ∧
      (rows.map (fun r => r.2.2.2)).get? i = some (positionIndex p.position) := by
  intro i p hp
  rw [List.get?_map] at hp
  cases hr : rows.get? i with
  | none => rw [hr] at hp; simp at hp
  | some r =>
      rw [hr] at hp
      simp only [Option.map_some'] at hp
      injection hp with hp
      have hm := hrows r (List.get?_mem hr)
      constructor
      · rw [List.get?_map, hr, Option.map_some', hm.1, hp]
      · rw [List.get?_map, hr, Option.map_some', hm.2, hp]

/-- C6: every payload accepted by parseCSV is index aligned: the players,
ratings and position-code sequences have one entry per accepted row, so
their lengths agree (and equal num_players), and at every index the rating
and the position code are those of the player at that index. -/
theorem parseCSV_index_alignment (csv : String) (d : ParsedData)
    (h : parseCSV csv = .ok d) :
    d.players.length = d.ratings.length ∧
    d.players.length = d.position_indices.length ∧
    d.num_players = d.players.length ∧
    (∀ i p, d.players.get? i = some p →
      d.ratings.get? i = some p.rating ∧
      d.position_indices.get? i = some (positionIndex p.position)) := by
  simp only [parseCSV] at h
  split at h
  · simp at h
  · split at h
    · split at h
      · simp at h
      · injection h with h2
        subst h2
        refine ⟨by simp, by simp, by simp, ?_⟩
        apply alignment_of_rows
        intro r hr
        rcases List.mem_filterMap.1 hr with ⟨a, _, hpr⟩
        have hs := parseRow_shape _ _ _ _ _ _ hpr
        exact ⟨hs.1, hs.2.2⟩
    · simp at h

/-- Witness for the C6 alignment theorem at a concrete two-column CSV. -/
theorem parseCSV_index_alignment_witness :
    ([⟨"A", 5, "unknown"⟩] : List Player).length = ([(5 : Int)]).length ∧
    ([(5 : Int)]).get? 0 = some (Player.mk "A" 5 "unknown").rating ∧
    ([(0 : Nat)]).get? 0 = some (positionIndex (Player.mk "A" 5 "unknown").position) := by
  have h := parseCSV_index_alignment "name,rating\nA,5"
    ⟨1, [⟨"A", 5, "unknown"⟩], [5], ["unknown"], [0]⟩ rfl
  exact ⟨h.1, (h.2.2.2 0 ⟨"A", 5, "unknown"⟩ rfl).1,
    (h.2.2.2 0 ⟨"A", 5, "unknown"⟩ rfl).2⟩

/-- C8 counterexample: the row with position goalie parses to a Player whose
position is the verbatim string goalie, not unknown, although its position
code is 0; so an unrecognized position is not mapped to unknown on the
Player record. -/
theorem unrecognized_position_kept_verbatim :
    (parseCSV "name,rating,position\nEve,5,goalie").toOption.map
        (fun d => d.players.map Player.position) = some ["goalie"] ∧
    (parseCSV "name,rating,position\nEve,5,goalie").toOption.map
        ParsedData.position_indices = some [0] ∧
    ¬ (parseCSV "name,rating,position\nEve,5,goalie").toOption.map
        (fun d => d.players.map Player.position) = some ["unknown"] := by
  refine ⟨rfl, rfl, by decide⟩

/-- C8 (amended): a data row whose rating field does not parse as an integer
contributes nothing; on every accepted row, a position outside forward,
midfield and defense gets position code 0, a missing position column yields
the position unknown, and a missing or empty position field yields the
position unknown — while a non-empty unrecognized position string is kept
verbatim on the Player (lowercased), with code 0. -/
theorem row_skipping_and_position_defaults (nameIdx ratingIdx : Nat)
    (posIdx : Option Nat) (i : Nat) (line : String) :
    (((jsSplitOn ',' (jsTrim line)).get? ratingIdx).bind
        (fun v => jsParseInt (jsTrim v)) = none →
      parseRow nameIdx ratingIdx posIdx i line = none) ∧
    (∀ p rt pos idx,
      parseRow nameIdx ratingIdx posIdx i line = some (p, rt, pos, idx) →
      (p.position ≠ "forward" → p.position ≠ "midfield" → p.position ≠ "defense" →
        idx = 0) ∧
      (posIdx = none → p.position = "unknown") ∧
      (∀ j, posIdx = some j →
        (((jsSplitOn ',' (jsTrim line)).get? j).map
            (fun v => jsToLower (jsTrim v))).getD "" = "" →
        p.position = "unknown")) := by
  constructor
  · intro h
    simp only [parseRow]
    split
    · rfl
    · split
      · rw [h]
      · rfl
  · intro p rt pos idx h
    simp only [parseRow] at h
    split at h
    · simp at h
    · split at h
      · split at h
        · simp at h
        · injection h with h2
          injection h2 with hA h3
          injection h3 with hB h4
          injection h4 with hC hD
          subst hA; subst hB; subst hC; subst hD
          refine ⟨?_, ?_, ?_⟩
          · intro hf hm hd
            simp only [positionIndex]
            rw [if_neg hf, if_neg hm, if_neg hd]
          · intro he
            subst he
            rfl
          · intro j hj hcond
            subst hj
            cases hv : (jsSplitOn ',' (jsTrim line)).get? j with
            | none =>
                show Player.position _ = _
                simp only [hv]
                rfl
            | some v =>
                rw [hv] at hcond
                simp only [Option.getD_some, Option.map_some'] at hcond
                show Player.position _ = _
                simp only [hv]
                show (if jsToLower (jsTrim v) = "" then "unknown"
                  else jsToLower (jsTrim v)) = "unknown"
                rw [if_pos hcond]
      · simp at h

/-- Witness for the amended C8 theorem: a row with an unparsable rating is
skipped, and the accepted goalie row gets position code 0. -/
theorem row_skipping_and_position_defaults_witness :
    parseRow 0 1 (some 2) 1 "Eve,abc,goalie" = none ∧
    positionIndex "goalie" = 0 := by
  refine ⟨(row_skipping_and_position_defaults 0 1 (some 2) 1 "Eve,abc,goalie").1
    (by decide), ?_⟩
  exact ((row_skipping_and_position_defaults 0 1 (some 2) 1 "Eve,5,goalie").2
    ⟨"Eve", 5, "goalie"⟩ 5 "goalie" (positionIndex "goalie") (by decide)).1
    (by decide) (by decide) (by decide)

/-- C10: splitIntoTeams sends the player at index i to team A exactly when
the assignment entry at i is 0 and to team B for every other value;
assignment entries beyond the player count are ignored and players beyond
the assignment length land on neither team, so the two teams are the
order-preserving partition of the first min players.length assignment.length
players selected by the zero test. -/
theorem splitIntoTeams_partition_spec (players : List Player) (assn : List Int) :
    (splitIntoTeams players assn).1
      = ((players.zip assn).filter (fun pt => pt.2 == 0)).map Prod.fst ∧
    (splitIntoTeams players assn).2
      = ((players.zip assn).filter (fun pt => !(pt.2 == 0))).map Prod.fst ∧
    (splitIntoTeams players assn).1.length + (splitIntoTeams players assn).2.length
      = min players.length assn.length ∧
    (splitIntoTeams players assn).1.Sublist players ∧
    (splitIntoTeams players assn).2.Sublist players ∧
    (∀ i p t, players.get? i = some p → assn.get? i = some t →
      ((t = 0 ∧ p ∈ (splitIntoTeams players assn).1) ∨
       (t ≠ 0 ∧ p ∈ (splitIntoTeams players assn).2))) := by
  refine ⟨splitIntoTeams_fst players assn, splitIntoTeams_snd players assn,
    splitIntoTeams_length players assn, splitIntoTeams_fst_sublist players assn,
    splitIntoTeams_snd_sublist players assn, ?_⟩
  intro i p t hp ht
  have hz : (p, t) ∈ players.zip assn := get?_zip_mem players assn i p t hp ht
  by_cases h0 : t = 0
  · refine Or.inl ⟨h0, ?_⟩
    rw [splitIntoTeams_fst]
    exact List.mem_map.2 ⟨(p, t), List.mem_filter.2 ⟨hz, by simp [h0]⟩, rfl⟩
  · refine Or.inr ⟨h0, ?_⟩
    rw [splitIntoTeams_snd]
    exact List.mem_map.2 ⟨(p, t), List.mem_filter.2 ⟨hz, by simp [h0]⟩, rfl⟩

/-- Witness for the C10 theorem: the non-zero entry 5 sends the second
player to team B. -/
theorem splitIntoTeams_partition_spec_witness :
    (5 : Int) ≠ 0 ∧
    Player.mk "B" 2 "defense" ∈ (splitIntoTeams
      [⟨"A", 1, "forward"⟩, ⟨"B", 2, "defense"⟩] [0, 5]).2 := by
  have h := (splitIntoTeams_partition_spec
    [⟨"A", 1, "forward"⟩, ⟨"B", 2, "defense"⟩] [0, 5]).2.2.2.2.2 1
    ⟨"B", 2, "defense"⟩ 5 rfl rfl
  rcases h with ⟨h0, _⟩ | ⟨h0, hmem⟩
  · exact absurd h0 (by decide)
  · exact ⟨h0, hmem⟩
